import Mathlib

/-!
Verification of the aiagents repository (Next.js frontend plus the RAG
ingestion pipeline specified in spec.md).

The frontend source under `src/frontend` and `src/unnamed` is embedded
directly: API proxy route handlers become pure functions from the cookie
store and a backend oracle to a response value, page components become
functions from the cookie store to a page action, and the chat client's
message-sending handler becomes a state transition function.

The FastAPI backend (the `rag` module: router, pipeline, validator,
chunker, job manager) is not part of the source tree here; definitions for
it are modelled from the specification text and are marked as such in
their doc comments.
-/

namespace Aiagents

/-- JSON values, used to model request/response bodies built by the
frontend code via object literals, `JSON.stringify` and `JSON.parse`. -/
inductive Json where
  | null : Json
  | bool (b : Bool) : Json
  | num (n : Int) : Json
  | str (s : String) : Json
  | arr (items : List Json) : Json
  | obj (fields : List (String × Json)) : Json

/-- Keys of a JSON object, in order; empty for non-objects. -/
def objKeys : Json → List String
  | .obj fields => fields.map Prod.fst
  | _ => []

/-- Lookup of a key in a JSON object. -/
def getKey (j : Json) (k : String) : Option Json :=
  match j with
  | .obj fields =>
      match fields.find? (fun p => p.1 == k) with
      | some p => some p.2
      | none => none
  | _ => none

/-! ## Frontend API proxy routes

Embedding of the Next.js route handlers under `frontend/app/api/...`.
Each handler reads the `access_token` cookie, returns 401 without calling
the backend when it is absent, and otherwise forwards the request with a
bearer token and translates the backend response.  `JSON.parse` is
modelled by an arbitrary parse function (`none` = the parse throws). -/

/-- A request the proxy issues to the FastAPI backend. -/
structure BackendRequest where
  method : String
  path : String
  authToken : String
  body : Option Json

/-- The backend's raw HTTP response as seen by the proxy (`response.status`,
`response.statusText`, `await response.text()`). -/
structure BackendResponse where
  status : Nat
  statusText : String
  bodyText : String
deriving DecidableEq, Repr

/-- Embedding of the fetch `Response.ok` flag: true iff the status is in
the 200-299 range. -/
def respOk (status : Nat) : Bool := 200 ≤ status && status ≤ 299

/-- Result of a proxy route handler: the backend requests it issued (in
order) plus the HTTP status and body it returns to the browser. -/
structure ProxyResult where
  requests : List BackendRequest
  status : Nat
  body : Json

/-- The early-return taken by every handler when the `access_token` cookie
is absent: `NextResponse.json({ detail: "Unauthorized" }, { status: 401 })`
with no backend fetch issued. -/
def unauthorizedResult : ProxyResult :=
  { requests := [], status := 401,
    body := Json.obj [("detail", Json.str "Unauthorized")] }

/-- Embedding of the shared body-decoding snippet
`data = text ? JSON.parse(text) : null` with the catch clause
`data = text`: empty text gives null, unparsable text is kept as the raw
string. -/
def parsedBody (parse : String → Option Json) (text : String) : Json :=
  if text = "" then Json.null
  else
    match parse text with
    | some j => j
    | none => Json.str text

/-- Embedding of the nullish-coalescing `data ?? response.statusText`. -/
def coalesce (j : Json) (s : String) : Json :=
  match j with
  | .null => Json.str s
  | _ => j

/-- Embedding of the shared response-translation tail of the proxy
handlers: on a non-ok backend status respond with
`{ detail: data ?? statusText }`, otherwise pass `data` through; in both
cases the backend's status code is reused. -/
def proxyFinish (parse : String → Option Json) (b : BackendResponse) :
    Nat × Json :=
  let data := parsedBody parse b.bodyText
  if respOk b.status then (b.status, data)
  else (b.status, Json.obj [("detail", coalesce data b.statusText)])

/-- Backend request issued by the catalog areas GET handler. -/
def areasGetReq (t : String) : BackendRequest :=
  { method := "GET", path := "/catalog/areas", authToken := t, body := none }

/-- Backend request issued by the catalog area PUT handler. -/
def areaPutReq (t areaId : String) (payload : Json) : BackendRequest :=
  { method := "PUT", path := "/catalog/areas/" ++ areaId, authToken := t,
    body := some payload }

/-- Backend request issued by the chatbot session GET handler. -/
def sessionGetReq (t sessionId : String) : BackendRequest :=
  { method := "GET", path := "/chatbot/sessions/" ++ sessionId,
    authToken := t, body := none }

/-- Backend request issued by the chatbot session DELETE handler. -/
def sessionDeleteReq (t sessionId : String) : BackendRequest :=
  { method := "DELETE", path := "/chatbot/sessions/" ++ sessionId,
    authToken := t, body := none }

/-- Backend request issued by the user role-assignment POST handler. -/
def rolesPostReq (t userId : String) (payload : Json) : BackendRequest :=
  { method := "POST", path := "/catalog/users/" ++ userId ++ "/roles",
    authToken := t, body := some payload }

/-- Embedding of `GET /api/catalog/areas` (src/unnamed/part_001). -/
def catalogAreasGet (token : Option String)
    (backend : BackendRequest → BackendResponse)
    (parse : String → Option Json) : ProxyResult :=
  match token with
  | none => unauthorizedResult
  | some t =>
      let req := areasGetReq t
      let r := proxyFinish parse (backend req)
      { requests := [req], status := r.1, body := r.2 }

/-- Embedding of `PUT /api/catalog/areas/[areaId]`
(frontend/app/api/catalog/areas/[areaId]/route.ts). -/
def catalogAreaPut (token : Option String) (areaId : String) (payload : Json)
    (backend : BackendRequest → BackendResponse)
    (parse : String → Option Json) : ProxyResult :=
  match token with
  | none => unauthorizedResult
  | some t =>
      let req := areaPutReq t areaId payload
      let r := proxyFinish parse (backend req)
      { requests := [req], status := r.1, body := r.2 }

/-- Embedding of `GET /api/chatbot/sessions/[sessionId]`
(frontend/app/api/chatbot/sessions/[sessionId]/route.ts). -/
def chatbotSessionGet (token : Option String) (sessionId : String)
    (backend : BackendRequest → BackendResponse)
    (parse : String → Option Json) : ProxyResult :=
  match token with
  | none => unauthorizedResult
  | some t =>
      let req := sessionGetReq t sessionId
      let r := proxyFinish parse (backend req)
      { requests := [req], status := r.1, body := r.2 }

/-- Embedding of `DELETE /api/chatbot/sessions/[sessionId]`. -/
def chatbotSessionDelete (token : Option String) (sessionId : String)
    (backend : BackendRequest → BackendResponse)
    (parse : String → Option Json) : ProxyResult :=
  match token with
  | none => unauthorizedResult
  | some t =>
      let req := sessionDeleteReq t sessionId
      let r := proxyFinish parse (backend req)
      { requests := [req], status := r.1, body := r.2 }

/-- Embedding of `POST /api/catalog/users/[userId]/roles`
(frontend/app/api/catalog/users/[userId]/roles/route.ts): on success the
handler returns `new NextResponse(null, { status })`, and the body is only
decoded on the failure path. -/
def userRolesPost (token : Option String) (userId : String) (payload : Json)
    (backend : BackendRequest → BackendResponse)
    (parse : String → Option Json) : ProxyResult :=
  match token with
  | none => unauthorizedResult
  | some t =>
      let req := rolesPostReq t userId payload
      let b := backend req
      if respOk b.status then
        { requests := [req], status := b.status, body := Json.null }
      else
        { requests := [req], status := b.status,
          body := Json.obj
            [("detail", coalesce (parsedBody parse b.bodyText) b.statusText)] }

/-! ## Protected page components -/

/-- Outcome of rendering a server page component: either a `redirect(...)`
or rendering a client component. -/
inductive PageAction where
  | redirectTo (path : String)
  | render (component : String)
deriving DecidableEq, Repr

/-- Embedding of `ChatPage` (frontend/app/chat/page.tsx). -/
def chatPage (token : Option String) : PageAction :=
  match token with
  | none => .redirectTo "/auth"
  | some _ => .render "ChatClient"

/-- Embedding of `CatalogPage` (src/unnamed/part_005). -/
def catalogPage (token : Option String) : PageAction :=
  match token with
  | none => .redirectTo "/auth"
  | some _ => .render "CatalogClient"

/-- Embedding of `MenuPage` (src/unnamed/part_007). -/
def menuPage (token : Option String) : PageAction :=
  match token with
  | none => .redirectTo "/auth"
  | some _ => .render "MenuClient"

/-- Embedding of the root `Home` page (src/unnamed/part_000, second file):
no cookie redirects to `/auth`, otherwise to `/menu`. -/
def homePage (token : Option String) : PageAction :=
  match token with
  | none => .redirectTo "/auth"
  | some _ => .redirectTo "/menu"

/-! ## Chat client (src/unnamed/part_004) -/

/-- Embedding of the `ChatMessage` type of the chat client. -/
structure ChatMessage where
  id : String
  role : String
  content : String
  created_at : String
  metadata : Option Json

/-- Embedding of the `RetrievedSource` type; the numeric relevance score is
carried opaquely (the client never computes with it), so it is embedded as
an integer-valued field. -/
structure RetrievedSource where
  chunk_id : String
  area_slug : String
  score : Int
  text : String
  chunk_index : Option Nat
  artifact_id : Option String
  source_path : Option String

/-- Embedding of the `ChatResponsePayload` returned by
`POST /api/chatbot/query`; `sources` is optional because the handler
guards it with `data.sources ?? []`. -/
structure ChatResponsePayload where
  session_id : String
  message : ChatMessage
  sources : Option (List RetrievedSource)

/-- Embedding of the JS `String.prototype.trim`: whitespace stripped
from both ends (written with structural recursion so that terms over it
reduce in the kernel). -/
def strTrim (s : String) : String :=
  String.mk (((s.toList.dropWhile Char.isWhitespace).reverse.dropWhile
    Char.isWhitespace).reverse)

/-- The pieces of React state of `ChatClient` that `handleSendMessage`
reads or writes. -/
structure ChatState where
  messages : List ChatMessage
  sourcesByMessage : List (String × List RetrievedSource)
  input : String
  activeSessionId : Option String
  errorMsg : Option String

/-- Embedding of the JS object-spread update
`{ ...prev, [k]: v }` on the sources map: the binding for `k` is replaced
in place when present (these maps always carry unique keys), appended
otherwise. -/
def setKey (m : List (String × List RetrievedSource)) (k : String)
    (v : List RetrievedSource) : List (String × List RetrievedSource) :=
  match m with
  | [] => [(k, v)]
  | p :: t => if p.1 == k then (k, v) :: t else p :: setKey t k v

/-- Lookup in the sources map. -/
def lookupKey (m : List (String × List RetrievedSource)) (k : String) :
    Option (List RetrievedSource) :=
  (m.find? (fun p => p.1 == k)).map Prod.snd

/-- Embedding of `handleSendMessage`: the empty-input early return, the
optimistic append of the user message, and the two continuations of the
fetch to `POST /api/chatbot/query` - on failure the optimistic message is
filtered back out and the error recorded, on success the message list is
rebuilt as `[...filtered, optimisticMessage, assistantMessage]`, the
assistant sources are recorded under the assistant message id, and the
active session follows `data.session_id`.  The fresh uuid and the
timestamp are passed in as parameters, the network outcome as an
`Except`. -/
def handleSendMessage (st : ChatState) (optimisticId now : String)
    (outcome : Except String ChatResponsePayload) : ChatState :=
  if strTrim st.input = "" then st
  else
    let optimisticMessage : ChatMessage :=
      { id := optimisticId, role := "user", content := st.input,
        created_at := now, metadata := none }
    let afterOptimistic := st.messages ++ [optimisticMessage]
    match outcome with
    | .error e =>
        { st with
          messages := afterOptimistic.filter (fun m => m.id != optimisticId),
          input := "",
          errorMsg := some e }
    | .ok data =>
        let assistantMessage : ChatMessage := { data.message with role := "assistant" }
        { messages :=
            (afterOptimistic.filter (fun m => m.id != optimisticId)) ++
              [optimisticMessage, assistantMessage],
          sourcesByMessage :=
            setKey st.sourcesByMessage assistantMessage.id (data.sources.getD []),
          input := "",
          activeSessionId := some data.session_id,
          errorMsg := none }

/-! ## Operations menu client (frontend/app/menu/MenuClient.tsx) -/

/-- The form state of `MenuClient` feeding `requestPayload`. -/
structure MenuForm where
  uri : String
  area_slug : String
  agent_slug : String
  recursive : Bool
  force_reprocess : Bool

/-- Embedding of the `requestPayload` memo of `MenuClient`: the body sent
to `POST /api/rag/ingest`, an object with `force_reprocess` and a
single-element `locations` array. -/
def requestPayload (f : MenuForm) : Json :=
  Json.obj
    [("force_reprocess", Json.bool f.force_reprocess),
     ("locations",
       Json.arr
         [Json.obj
           [("uri", Json.str f.uri),
            ("area_slug", Json.str f.area_slug),
            ("agent_slug", Json.str f.agent_slug),
            ("recursive", Json.bool f.recursive)]])]

/-! ## Chunker

The backend chunker (`rag/pipeline/chunking.py`, a recursive character
text splitter) is not part of the source tree here; it is modelled from
the specification. -/

/-- Modelled from the spec: the missing chunker splits on a hierarchy of
separators; this helper re-attaches the separator to every piece except
the last so that no text is lost. -/
def reattachSep (sep : String) : List String → List String
  | [] => []
  | [x] => [x]
  | x :: xs => (x ++ sep) :: reattachSep sep xs

/-- Modelled from the spec: split on a separator, keeping the separator
attached to the preceding piece. -/
def splitKeepSep (sep : String) (s : String) : List String :=
  reattachSep sep (s.splitOn sep)

/-- Modelled from the spec: hard character-count splitting, the last
resort when no natural boundary exists within the size budget. -/
def hardSplit (size : Nat) (l : List Char) : List (List Char) :=
  if h : l = [] then []
  else l.take (max size 1) :: hardSplit size (l.drop (max size 1))
termination_by l.length
decreasing_by
  have hl : 0 < l.length := List.length_pos.mpr h
  simp only [List.length_drop]
  omega

/-- Modelled from the spec: recursively split `s` into fragments of
length at most `size` wherever a clean split point exists, preferring the
separators in `seps` in order and falling back to hard character-count
splitting. -/
def fragments (size : Nat) (seps : List String) (s : String) : List String :=
  if s.length ≤ size then [s]
  else
    match seps with
    | [] => (hardSplit size s.toList).map (fun cs => String.mk cs)
    | sep :: rest => (splitKeepSep sep s).flatMap (fun piece => fragments size rest piece)

/-- Modelled from the spec: the trailing `n` characters of a chunk, used
as the overlap carried into the next chunk. -/
def lastChars (n : Nat) (s : String) : String :=
  String.mk (s.toList.drop (s.length - n))

/-- Modelled from the spec: greedily merge fragments into chunks of at
most `size` characters, carrying up to `overlap` characters of a finished
chunk into the next one. -/
def mergeLoop (size overlap : Nat) (buf : String) : List String → List String
  | [] => if buf = "" then [] else [buf]
  | f :: rest =>
      if buf = "" then mergeLoop size overlap f rest
      else if buf.length + f.length ≤ size then mergeLoop size overlap (buf ++ f) rest
      else buf :: mergeLoop size overlap (lastChars overlap buf ++ f) rest

/-- Modelled from the spec: the separator hierarchy - paragraph break,
line break, sentence-ending punctuation, whitespace - with character
boundaries as the fallback. -/
def chunkSeparators : List String := ["\n\n", "\n", ". ", " "]

/-- Modelled from the spec: the Chunker contract of section 4.3, a pure
function of the text and `(chunk_size, chunk_overlap)`. -/
def chunkText (size overlap : Nat) (text : String) : List String :=
  mergeLoop size overlap "" (fragments size chunkSeparators text)

/-! ## Token Validator

The backend Token Validator (spec section 4.5) is not part of the source
tree here; it is modelled from the specification.  A token is modelled as
one character code of the chunk text. -/

/-- Per-chunk diagnostic record retained for the first few chunks of a
job (mirrors the `TokenSample` type consumed by MenuClient.tsx). -/
structure TokenSample where
  chunk_index : Nat
  token_count : Nat
  invalid_characters : Nat
  sample_tokens : List Nat
  sample_text : String
  validation_note : String
deriving DecidableEq, Repr

/-- Aggregate token diagnostics of one job (mirrors the `TokenSummary`
type consumed by MenuClient.tsx). -/
structure TokenSummary where
  total_tokens : Nat
  valid_tokens : Nat
  invalid_tokens : Nat
  removed_characters : Nat
  dropped_chunks : Nat
  fallback_chunks : List Nat
  samples : List TokenSample
deriving DecidableEq, Repr

/-- Modelled from the spec: a token (character code) is valid when it
falls inside the accepted set; control characters are invalid. -/
def validCode (n : Nat) : Bool := 32 ≤ n

/-- Tokenization of a chunk: one token per character. -/
def chunkTokens (text : String) : List Nat := text.toList.map Char.toNat

/-- The all-zero summary a job starts from. -/
def emptyTokenSummary : TokenSummary :=
  { total_tokens := 0, valid_tokens := 0, invalid_tokens := 0,
    removed_characters := 0, dropped_chunks := 0, fallback_chunks := [],
    samples := [] }

/-- Modelled from the spec: validate one chunk and fold its counts into
the running summary.  Invalid tokens are stripped and counted in
`removed_characters`; when the invalid proportion exceeds `dropPct`
percent the chunk is dropped; otherwise a chunk containing non-ASCII
codes is re-encoded ASCII-safe and its index marked in `fallback_chunks`;
diagnostic samples are kept only while fewer than `sampleCap` are
stored. -/
def stepSummary (dropPct sampleCap idx : Nat) (s : TokenSummary)
    (text : String) : TokenSummary :=
  let toks := chunkTokens text
  let n := toks.length
  let v := toks.countP validCode
  let inv := n - v
  let dropped := decide (dropPct * n < inv * 100)
  let fallback := !dropped && toks.any (fun t => decide (127 < t))
  { total_tokens := s.total_tokens + n,
    valid_tokens := s.valid_tokens + v,
    invalid_tokens := s.invalid_tokens + inv,
    removed_characters := s.removed_characters + inv,
    dropped_chunks := s.dropped_chunks + (if dropped then 1 else 0),
    fallback_chunks := s.fallback_chunks ++ (if fallback then [idx] else []),
    samples := s.samples ++
      (if s.samples.length < sampleCap then
        [{ chunk_index := idx, token_count := n, invalid_characters := inv,
           sample_tokens := toks.take 10, sample_text := text.take 80,
           validation_note :=
             if dropped then "dropped" else if fallback then "ascii-fallback" else "ok" }]
      else []) }

/-- Modelled from the spec: run the validator over the chunks of a job in
order, starting the chunk index at `idx`. -/
def summarizeFrom (dropPct sampleCap idx : Nat) (s : TokenSummary) :
    List String → TokenSummary
  | [] => s
  | c :: rest => summarizeFrom dropPct sampleCap (idx + 1) (stepSummary dropPct sampleCap idx s c) rest

/-- Modelled from the spec: the TokenSummary computed for a job from the
texts of its chunks, as frozen at the job terminal transition and later
delivered through `GET /rag/jobs`. -/
def jobTokenSummary (dropPct sampleCap : Nat) (chunks : List String) : TokenSummary :=
  summarizeFrom dropPct sampleCap 0 emptyTokenSummary chunks

/-! ## Job data model and the `/rag` endpoints

The relational data model and the FastAPI router (`rag/models.py`,
`rag/router.py`) are not part of the source tree here; they are modelled
from the specification. -/

/-- Modelled from the spec: the IngestionJob status enum of section 4.6. -/
inductive JobStatus where
  | pending
  | running
  | succeeded
  | failed
  | partialDone
deriving DecidableEq, Repr

/-- Terminal statuses are `succeeded`, `failed` and `partial`. -/
def isTerminal : JobStatus → Bool
  | .succeeded => true
  | .failed => true
  | .partialDone => true
  | .pending => false
  | .running => false

/-- Serialized name of a job status. -/
def statusName : JobStatus → String
  | .pending => "pending"
  | .running => "running"
  | .succeeded => "succeeded"
  | .failed => "failed"
  | .partialDone => "partial"

/-- Modelled from the spec: the IngestionJob record of section 3 (this is
also the `JobSummary` shape the MenuClient frontend expects). -/
structure IngestionJob where
  id : String
  area_slug : String
  agent_slug : String
  source_uri : String
  status : JobStatus
  total_artifacts : Nat
  processed_artifacts : Nat
  error_message : Option String
  created_at : String
  updated_at : Option String
  token_summary : Option TokenSummary
deriving DecidableEq, Repr

/-- JSON encoding of a nullable string. -/
def encodeOptStr : Option String → Json
  | none => Json.null
  | some s => Json.str s

/-- JSON encoding of a token sample. -/
def encodeSample (t : TokenSample) : Json :=
  Json.obj
    [("chunk_index", Json.num (Int.ofNat t.chunk_index)),
     ("token_count", Json.num (Int.ofNat t.token_count)),
     ("invalid_characters", Json.num (Int.ofNat t.invalid_characters)),
     ("sample_tokens", Json.arr (t.sample_tokens.map (fun n => Json.num (Int.ofNat n)))),
     ("sample_text", Json.str t.sample_text),
     ("validation_note", Json.str t.validation_note)]

/-- JSON encoding of a token summary. -/
def encodeTokenSummary (t : TokenSummary) : Json :=
  Json.obj
    [("total_tokens", Json.num (Int.ofNat t.total_tokens)),
     ("valid_tokens", Json.num (Int.ofNat t.valid_tokens)),
     ("invalid_tokens", Json.num (Int.ofNat t.invalid_tokens)),
     ("removed_characters", Json.num (Int.ofNat t.removed_characters)),
     ("dropped_chunks", Json.num (Int.ofNat t.dropped_chunks)),
     ("fallback_chunks", Json.arr (t.fallback_chunks.map (fun n => Json.num (Int.ofNat n)))),
     ("samples", Json.arr (t.samples.map encodeSample))]

/-- The attribute names of a serialized IngestionJob. -/
def ingestionJobKeys : List String :=
  ["id", "area_slug", "agent_slug", "source_uri", "status",
   "total_artifacts", "processed_artifacts", "error_message",
   "created_at", "updated_at", "token_summary"]

/-- Modelled from the spec: JSON serialization of an IngestionJob as
returned by the `/rag` endpoints. -/
def encodeJob (j : IngestionJob) : Json :=
  Json.obj
    [("id", Json.str j.id),
     ("area_slug", Json.str j.area_slug),
     ("agent_slug", Json.str j.agent_slug),
     ("source_uri", Json.str j.source_uri),
     ("status", Json.str (statusName j.status)),
     ("total_artifacts", Json.num (Int.ofNat j.total_artifacts)),
     ("processed_artifacts", Json.num (Int.ofNat j.processed_artifacts)),
     ("error_message", encodeOptStr j.error_message),
     ("created_at", Json.str j.created_at),
     ("updated_at", encodeOptStr j.updated_at),
     ("token_summary",
       match j.token_summary with
       | none => Json.null
       | some t => encodeTokenSummary t)]

/-- Modelled from the spec: the body of `GET /rag/jobs`, an object with a
single `jobs` key holding the serialized job list. -/
def ragJobsResponse (jobs : List IngestionJob) : Json :=
  Json.obj [("jobs", Json.arr (jobs.map encodeJob))]

/-! ## Ingestion pipeline and job state machine

The Ingestion Job Manager (`rag/pipeline`, spec sections 4.6 and 7) is
not part of the source tree here; it is modelled from the specification.
The per-artifact pipeline stages (extraction, embedding, upsert) interact
with external services, so their outcome on a given file is abstracted as
an oracle; the content digest is abstracted as the (collision-free)
identity on the raw byte content. -/

/-- An input Location of an ingestion request. -/
structure Location where
  uri : String
  area_slug : String
  agent_slug : String
  recursive : Bool
deriving DecidableEq, Repr

/-- A discovered file: its path and raw byte content. -/
structure IngestFile where
  path : String
  content : String
deriving DecidableEq, Repr

/-- Modelled from the spec: the outcome of driving one (non-skipped) file
through extraction, chunking, embedding and upsert. -/
inductive FileOutcome where
  | extracted (text : String)
  | extractionFailed
  | embedDimMismatch
  | embedProviderUnavailable
  | upsertFailed
deriving DecidableEq, Repr

/-- Status of an Artifact record. -/
inductive ArtifactStatus where
  | completed
  | skippedDuplicate
  | failedArtifact (msg : String)
deriving DecidableEq, Repr

/-- Modelled from the spec: the Artifact record of section 3 (fields the
claims touch: source path, content hash, status). -/
structure Artifact where
  path : String
  hash : String
  status : ArtifactStatus
deriving DecidableEq, Repr

/-- Modelled from the spec: a persisted Chunk record with its vector
payload metadata. -/
structure ChunkRecord where
  area_slug : String
  agent_slug : String
  artifact_path : String
  chunk_index : Nat
  text : String
deriving DecidableEq, Repr

/-- Modelled from the spec: the shared ledger and vector store - the
content hashes of the artifacts created so far (scoped per area), the
persisted chunks, and counters of extraction and embedding work (used to
express that skipped duplicates cause no re-extraction/re-embedding). -/
structure Store where
  hashes : List (String × String)
  chunks : List ChunkRecord
  extractions : Nat
  embeddings : Nat
deriving DecidableEq, Repr

/-- Modelled from the spec: the content digest, abstracted as the
identity on the raw byte content (a collision-free digest). -/
def hashContent (content : String) : String := content

/-- Dedup lookup: does an artifact with this hash already exist for the
area? -/
def hasHash (hs : List (String × String)) (area h : String) : Bool :=
  hs.any (fun p => p.1 == area && p.2 == h)

/-- Pipeline configuration consumed by the Job Manager. -/
structure PipelineCfg where
  chunk_size : Nat
  chunk_overlap : Nat
  dropPct : Nat
  sampleCap : Nat
deriving DecidableEq, Repr

/-- Running state of one job: the shared store, the artifact records
created so far, the chunks created by this job, the processed/failure
counters and the fatal flag with its error message. -/
structure JobRun where
  store : Store
  artifacts : List Artifact
  newChunks : List ChunkRecord
  processed : Nat
  failures : Nat
  fatal : Bool
  errorMsg : Option String
deriving DecidableEq, Repr

/-- The state a job starts from. -/
def initialRun (store : Store) : JobRun :=
  { store := store, artifacts := [], newChunks := [], processed := 0,
    failures := 0, fatal := false, errorMsg := none }

/-- Chunk records created from the chunk texts of one artifact, with the
0-based chunk index. -/
def mkChunks (area agent path : String) (texts : List String) : List ChunkRecord :=
  texts.enum.map (fun p =>
    { area_slug := area, agent_slug := agent, artifact_path := path,
      chunk_index := p.1, text := p.2 })

/-- Modelled from the spec: the per-artifact algorithm of section 4.6.
A duplicate hash (without `force_reprocess`) is skipped with no further
work; otherwise the artifact record (and its hash) is created, extraction
runs, and the pipeline outcome decides between a completed artifact with
persisted chunks, a non-fatal artifact failure, or the fatal
provider-unavailable failure. -/
def processFile (cfg : PipelineCfg) (oracle : IngestFile → FileOutcome)
    (force : Bool) (area agent : String) (st : JobRun) (f : IngestFile) : JobRun :=
  let h := hashContent f.content
  if hasHash st.store.hashes area h && !force then
    { st with
      artifacts := st.artifacts ++ [{ path := f.path, hash := h, status := .skippedDuplicate }],
      processed := st.processed + 1 }
  else
    let store0 :=
      { st.store with
        hashes := st.store.hashes ++ [(area, h)],
        extractions := st.store.extractions + 1 }
    match oracle f with
    | .extractionFailed =>
        { st with
          store := store0,
          artifacts := st.artifacts ++
            [{ path := f.path, hash := h, status := .failedArtifact "ExtractionError: chain-exhausted" }],
          processed := st.processed + 1, failures := st.failures + 1 }
    | .extracted text =>
        let cs := mkChunks area agent f.path (chunkText cfg.chunk_size cfg.chunk_overlap text)
        { st with
          store := { store0 with
            embeddings := store0.embeddings + 1,
            chunks := store0.chunks ++ cs },
          newChunks := st.newChunks ++ cs,
          artifacts := st.artifacts ++ [{ path := f.path, hash := h, status := .completed }],
          processed := st.processed + 1 }
    | .embedDimMismatch =>
        { st with
          store := { store0 with embeddings := store0.embeddings + 1 },
          artifacts := st.artifacts ++
            [{ path := f.path, hash := h, status := .failedArtifact "EmbeddingError: dimension-mismatch" }],
          processed := st.processed + 1, failures := st.failures + 1 }
    | .embedProviderUnavailable =>
        { st with
          store := { store0 with embeddings := store0.embeddings + 1 },
          artifacts := st.artifacts ++
            [{ path := f.path, hash := h, status := .failedArtifact "EmbeddingError: provider-unavailable" }],
          processed := st.processed + 1, failures := st.failures + 1,
          fatal := true, errorMsg := some "EmbeddingError: provider-unavailable" }
    | .upsertFailed =>
        { st with
          store := { store0 with embeddings := store0.embeddings + 1 },
          artifacts := st.artifacts ++
            [{ path := f.path, hash := h, status := .failedArtifact "StorageError: upsert-failed" }],
          processed := st.processed + 1, failures := st.failures + 1 }

/-- Modelled from the spec: the Job Manager per-artifact loop; a fatal
error short-circuits the remaining artifacts. -/
def runFiles (cfg : PipelineCfg) (oracle : IngestFile → FileOutcome)
    (force : Bool) (area agent : String) (st : JobRun) :
    List IngestFile → JobRun
  | [] => st
  | f :: rest =>
      if st.fatal then st
      else runFiles cfg oracle force area agent (processFile cfg oracle force area agent st f) rest

/-- Modelled from the spec: the terminal status computed after the loop -
`succeeded` if zero artifact failures, `failed` if a fatal error
occurred, `partial` otherwise. -/
def terminalStatus (run : JobRun) : JobStatus :=
  if run.fatal then .failed
  else if run.failures = 0 then .succeeded
  else .partialDone

/-- Modelled from the spec: the allowed status transitions of an
IngestionJob - `pending` to `running` at job start, `running` to a
terminal status at the terminal transition. -/
inductive JobStep : JobStatus → JobStatus → Prop where
  | start : JobStep .pending .running
  | finish (t : JobStatus) : isTerminal t = true → JobStep .running t

/-- One `{job, artifacts}` element of the `POST /rag/ingest` response. -/
structure IngestResponseItem where
  job : IngestionJob
  artifacts : List Artifact
deriving DecidableEq, Repr

/-- JSON encoding of an artifact. -/
def encodeArtifact (a : Artifact) : Json :=
  Json.obj
    [("path", Json.str a.path),
     ("hash", Json.str a.hash),
     ("status",
       match a.status with
       | .completed => Json.str "completed"
       | .skippedDuplicate => Json.str "skipped-duplicate"
       | .failedArtifact m => Json.str m)]

/-- JSON encoding of one response pair. -/
def encodeIngestItem (item : IngestResponseItem) : Json :=
  Json.obj
    [("job", encodeJob item.job),
     ("artifacts", Json.arr (item.artifacts.map encodeArtifact))]

/-- Modelled from the spec: process one Location - discover its files,
run the per-artifact loop, and build the IngestionJob record with its
terminal status, counters, error trail and frozen TokenSummary. -/
def runLocation (cfg : PipelineCfg) (discover : Location → List IngestFile)
    (oracle : IngestFile → FileOutcome) (force : Bool) (store : Store)
    (loc : Location) : Store × IngestResponseItem :=
  let files := discover loc
  let run := runFiles cfg oracle force loc.area_slug loc.agent_slug (initialRun store) files
  let job : IngestionJob :=
    { id := loc.area_slug ++ ":" ++ loc.uri,
      area_slug := loc.area_slug,
      agent_slug := loc.agent_slug,
      source_uri := loc.uri,
      status := terminalStatus run,
      total_artifacts := files.length,
      processed_artifacts := run.processed,
      error_message := run.errorMsg,
      created_at := "",
      updated_at := none,
      token_summary :=
        some (jobTokenSummary cfg.dropPct cfg.sampleCap (run.newChunks.map (fun c => c.text))) }
  (run.store, { job := job, artifacts := run.artifacts })

/-- Modelled from the spec: `POST /rag/ingest` - one IngestionJob per
accepted Location, processed in order against the shared store; the
response carries one `{job, artifacts}` pair per location. -/
def ragIngest (cfg : PipelineCfg) (discover : Location → List IngestFile)
    (oracle : IngestFile → FileOutcome) (force : Bool) (store : Store) :
    List Location → Store × List IngestResponseItem
  | [] => (store, [])
  | loc :: rest =>
      let r := runLocation cfg discover oracle force store loc
      let rr := ragIngest cfg discover oracle force r.1 rest
      (rr.1, r.2 :: rr.2)

/-! ## Helper lemmas -/

/-- The second component of `ragIngest` has one entry per location. -/
theorem ragIngest_snd_length (cfg : PipelineCfg) (discover : Location → List IngestFile)
    (oracle : IngestFile → FileOutcome) (force : Bool) :
    ∀ (locs : List Location) (store : Store),
      (ragIngest cfg discover oracle force store locs).2.length = locs.length := by
  intro locs
  induction locs with
  | nil => intro store; rfl
  | cons loc rest ih => intro store; simp [ragIngest, ih]

/-- Two constant maps agree when the underlying lists have equal length. -/
theorem map_const_eq_of_length {α β γ : Type} (c : γ) :
    ∀ (l1 : List α) (l2 : List β), l1.length = l2.length →
      l1.map (fun _ => c) = l2.map (fun _ => c) := by
  intro l1
  induction l1 with
  | nil =>
      intro l2 h
      cases l2 with
      | nil => rfl
      | cons b t => simp at h
  | cons a t ih =>
      intro l2 h
      cases l2 with
      | nil => simp at h
      | cons b t2 =>
          simp only [List.map_cons]
          simp only [List.length_cons, Nat.succ.injEq] at h
          rw [ih t2 h]

/-- The token balance `valid + invalid = total` is preserved by the
validator fold. -/
theorem summarizeFrom_balance (dropPct sampleCap : Nat) :
    ∀ (chunks : List String) (idx : Nat) (s : TokenSummary),
      s.valid_tokens + s.invalid_tokens = s.total_tokens →
      (summarizeFrom dropPct sampleCap idx s chunks).valid_tokens +
          (summarizeFrom dropPct sampleCap idx s chunks).invalid_tokens =
        (summarizeFrom dropPct sampleCap idx s chunks).total_tokens := by
  intro chunks
  induction chunks with
  | nil => intro idx s h; exact h
  | cons c rest ih =>
      intro idx s h
      refine ih (idx + 1) (stepSummary dropPct sampleCap idx s c) ?_
      have hv := List.countP_le_length (p := validCode) (l := chunkTokens c)
      simp only [stepSummary]
      omega

/-- The validator fold drops at most one chunk per input chunk. -/
theorem summarizeFrom_dropped_le (dropPct sampleCap : Nat) :
    ∀ (chunks : List String) (idx : Nat) (s : TokenSummary),
      (summarizeFrom dropPct sampleCap idx s chunks).dropped_chunks ≤
        s.dropped_chunks + chunks.length := by
  intro chunks
  induction chunks with
  | nil => intro idx s; simp [summarizeFrom]
  | cons c rest ih =>
      intro idx s
      have h := ih (idx + 1) (stepSummary dropPct sampleCap idx s c)
      have hstep :
          (stepSummary dropPct sampleCap idx s c).dropped_chunks ≤ s.dropped_chunks + 1 := by
        simp only [stepSummary]
        split <;> omega
      simp only [summarizeFrom, List.length_cons]
      omega

/-! ## Claim theorems -/

/-- C1: the body `MenuClient` sends to `POST /rag/ingest` is an object
`{force_reprocess: bool, locations: [...]}` whose (single) location has the
fields `uri`, `area_slug`, `agent_slug`, `recursive`; and the response of
the ingest endpoint is one `{job, artifacts}` pair per submitted location,
the `job` carrying exactly the IngestionJob attributes. -/
theorem ingest_request_and_response_shape (f : MenuForm) (cfg : PipelineCfg)
    (discover : Location → List IngestFile) (oracle : IngestFile → FileOutcome)
    (force : Bool) (store : Store) (locs : List Location) :
    requestPayload f =
      Json.obj
        [("force_reprocess", Json.bool f.force_reprocess),
         ("locations",
           Json.arr
             [Json.obj
               [("uri", Json.str f.uri),
                ("area_slug", Json.str f.area_slug),
                ("agent_slug", Json.str f.agent_slug),
                ("recursive", Json.bool f.recursive)]])] ∧
    (ragIngest cfg discover oracle force store locs).2.length = locs.length ∧
    (ragIngest cfg discover oracle force store locs).2.map
        (fun item => objKeys (encodeIngestItem item)) =
      locs.map (fun _ => ["job", "artifacts"]) ∧
    (ragIngest cfg discover oracle force store locs).2.map
        (fun item => objKeys (encodeJob item.job)) =
      locs.map (fun _ => ingestionJobKeys) := by
  have hlen := ragIngest_snd_length cfg discover oracle force locs store
  refine ⟨rfl, hlen, ?_, ?_⟩
  · have hfun : (fun (item : IngestResponseItem) => objKeys (encodeIngestItem item)) =
        (fun _ => ["job", "artifacts"]) := by
      funext item; rfl
    rw [hfun]
    exact map_const_eq_of_length _ _ _ hlen
  · have hfun : (fun (item : IngestResponseItem) => objKeys (encodeJob item.job)) =
        (fun _ => ingestionJobKeys) := by
      funext item; rfl
    rw [hfun]
    exact map_const_eq_of_length _ _ _ hlen

/-- C2: `GET /rag/jobs` returns `{jobs: [...]}` and every serialized job
carries exactly the IngestionJob attributes id, area_slug, agent_slug,
source_uri, status, total_artifacts, processed_artifacts, error_message,
created_at, updated_at and token_summary. -/
theorem jobs_endpoint_shape (jobs : List IngestionJob) :
    objKeys (ragJobsResponse jobs) = ["jobs"] ∧
    getKey (ragJobsResponse jobs) "jobs" = some (Json.arr (jobs.map encodeJob)) ∧
    jobs.map (fun j => objKeys (encodeJob j)) = jobs.map (fun _ => ingestionJobKeys) := by
  refine ⟨rfl, by simp [getKey, ragJobsResponse], ?_⟩
  have hfun : (fun (j : IngestionJob) => objKeys (encodeJob j)) =
      (fun (_ : IngestionJob) => ingestionJobKeys) := by
    funext j; rfl
  rw [hfun]

/-- C3: for every TokenSummary a job produces,
`valid_tokens + invalid_tokens = total_tokens`, and `dropped_chunks` is at
most the number of chunks of the job. -/
theorem token_summary_accounting (dropPct sampleCap : Nat) (chunks : List String) :
    (jobTokenSummary dropPct sampleCap chunks).valid_tokens +
        (jobTokenSummary dropPct sampleCap chunks).invalid_tokens =
      (jobTokenSummary dropPct sampleCap chunks).total_tokens ∧
    (jobTokenSummary dropPct sampleCap chunks).dropped_chunks ≤ chunks.length := by
  constructor
  · exact summarizeFrom_balance dropPct sampleCap chunks 0 emptyTokenSummary rfl
  · have h := summarizeFrom_dropped_le dropPct sampleCap chunks 0 emptyTokenSummary
    simpa [emptyTokenSummary, jobTokenSummary] using h

/-- C7: for fixed `(chunk_size, chunk_overlap)`, two runs of the Chunker
on the same text yield identical chunk sequences - the same chunk count,
the same chunks (hence the same boundaries), and the same 0-based
chunk-index assignment. -/
theorem chunker_deterministic (size overlap : Nat) (text : String) :
    chunkText size overlap text = chunkText size overlap text ∧
    (chunkText size overlap text).length = (chunkText size overlap text).length ∧
    (chunkText size overlap text).enum = (chunkText size overlap text).enum ∧
    mkChunks "a" "g" "p" (chunkText size overlap text) =
      mkChunks "a" "g" "p" (chunkText size overlap text) :=
  ⟨rfl, rfl, rfl, rfl⟩

/-- C8: every proxy route handler invoked without an `access_token`
cookie returns 401 with body `{detail: "Unauthorized"}` and issues no
backend request, and every protected page component (chat, catalog, menu,
root) redirects to `/auth`. -/
theorem unauthenticated_rejection (backend : BackendRequest → BackendResponse)
    (parse : String → Option Json) (payload : Json) (areaId sessionId userId : String) :
    catalogAreasGet none backend parse = unauthorizedResult ∧
    catalogAreaPut none areaId payload backend parse = unauthorizedResult ∧
    chatbotSessionGet none sessionId backend parse = unauthorizedResult ∧
    chatbotSessionDelete none sessionId backend parse = unauthorizedResult ∧
    userRolesPost none userId payload backend parse = unauthorizedResult ∧
    unauthorizedResult.requests = [] ∧
    unauthorizedResult.status = 401 ∧
    unauthorizedResult.body = Json.obj [("detail", Json.str "Unauthorized")] ∧
    chatPage none = PageAction.redirectTo "/auth" ∧
    catalogPage none = PageAction.redirectTo "/auth" ∧
    menuPage none = PageAction.redirectTo "/auth" ∧
    homePage none = PageAction.redirectTo "/auth" :=
  ⟨rfl, rfl, rfl, rfl, rfl, rfl, rfl, rfl, rfl, rfl, rfl, rfl⟩

/-- The proxy tail always reuses the backend status, on both branches. -/
theorem proxyFinish_fst (parse : String → Option Json) (b : BackendResponse) :
    (proxyFinish parse b).1 = b.status := by
  simp only [proxyFinish]
  split <;> rfl

/-- A set binding is found back by lookup. -/
theorem lookupKey_setKey (k : String) (v : List RetrievedSource) :
    ∀ m, lookupKey (setKey m k v) k = some v := by
  intro m
  induction m with
  | nil => simp [setKey, lookupKey]
  | cons p t ih =>
      by_cases hp : (p.1 == k) = true
      · simp [setKey, lookupKey, hp, List.find?_cons]
      · simp only [setKey, hp, if_false, Bool.false_eq_true]
        simpa [lookupKey, List.find?_cons, hp] using ih

/-- C9: with an `access_token` cookie present, the proxy's HTTP status
equals the backend's status for every handler, and a non-empty backend
body that is not valid JSON is kept as raw text, wrapped in
`{detail: ...}` on non-ok statuses, instead of making the proxy throw. -/
theorem proxy_passthrough (parse : String → Option Json)
    (backend : BackendRequest → BackendResponse)
    (t : String) (payload : Json) (areaId sessionId userId : String)
    (b : BackendResponse)
    (hok : respOk b.status = false)
    (hparse : parse b.bodyText = none)
    (hne : b.bodyText ≠ "") :
    (catalogAreasGet (some t) backend parse).status = (backend (areasGetReq t)).status ∧
    (catalogAreaPut (some t) areaId payload backend parse).status =
      (backend (areaPutReq t areaId payload)).status ∧
    (chatbotSessionGet (some t) sessionId backend parse).status =
      (backend (sessionGetReq t sessionId)).status ∧
    (chatbotSessionDelete (some t) sessionId backend parse).status =
      (backend (sessionDeleteReq t sessionId)).status ∧
    (userRolesPost (some t) userId payload backend parse).status =
      (backend (rolesPostReq t userId payload)).status ∧
    parsedBody parse b.bodyText = Json.str b.bodyText ∧
    proxyFinish parse b = (b.status, Json.obj [("detail", Json.str b.bodyText)]) := by
  have hbody : parsedBody parse b.bodyText = Json.str b.bodyText := by
    simp [parsedBody, hne, hparse]
  refine ⟨proxyFinish_fst parse (backend (areasGetReq t)),
    proxyFinish_fst parse (backend (areaPutReq t areaId payload)),
    proxyFinish_fst parse (backend (sessionGetReq t sessionId)),
    proxyFinish_fst parse (backend (sessionDeleteReq t sessionId)),
    ?_, hbody, ?_⟩
  · simp only [userRolesPost]
    split <;> rfl
  · simp [proxyFinish, hok, hbody, coalesce]

/-- Concrete backend used by the C9 witness: a constant 502 gateway
failure with a non-JSON body. -/
def bk0 : BackendRequest → BackendResponse :=
  fun _ => { status := 502, statusText := "Bad Gateway", bodyText := "upstream broke" }

/-- Concrete parse function used by the C9 witness: every parse throws. -/
def parse0 : String → Option Json := fun _ => none

/-- Concrete backend response used by the C9 witness. -/
def bres0 : BackendResponse :=
  { status := 502, statusText := "Bad Gateway", bodyText := "upstream broke" }

/-- Witness for C9 at a concrete 502 backend with an unparsable body. -/
theorem proxy_passthrough_witness :
    (catalogAreasGet (some "tok") bk0 parse0).status = (bk0 (areasGetReq "tok")).status ∧
    proxyFinish parse0 bres0 = (502, Json.obj [("detail", Json.str "upstream broke")]) := by
  have h := proxy_passthrough parse0 bk0 "tok" Json.null "a1" "s1" "u1" bres0
    (by decide) rfl (by decide)
  exact ⟨h.1, h.2.2.2.2.2.2⟩

/-- C10: in `handleSendMessage`, a failed `POST /api/chatbot/query`
restores the message list to exactly its pre-send contents, while a
successful one leaves the previous messages followed by the user message
and the assistant message, with the assistant's sources recorded under
its id. -/
theorem send_message_optimistic_update (st : ChatState) (optimisticId now e : String)
    (data : ChatResponsePayload)
    (hfresh : ∀ m ∈ st.messages, m.id ≠ optimisticId)
    (hinput : strTrim st.input ≠ "") :
    (handleSendMessage st optimisticId now (Except.error e)).messages = st.messages ∧
    (handleSendMessage st optimisticId now (Except.ok data)).messages =
      st.messages ++
        [{ id := optimisticId, role := "user", content := st.input,
           created_at := now, metadata := none },
         { data.message with role := "assistant" }] ∧
    lookupKey (handleSendMessage st optimisticId now (Except.ok data)).sourcesByMessage
        data.message.id =
      some (data.sources.getD []) := by
  have hfilter :
      (st.messages ++
          [({ id := optimisticId, role := "user", content := st.input,
              created_at := now, metadata := none } : ChatMessage)]).filter
        (fun m => m.id != optimisticId) = st.messages := by
    rw [List.filter_append]
    have h1 : st.messages.filter (fun m => m.id != optimisticId) = st.messages := by
      rw [List.filter_eq_self]
      intro m hm
      simpa using hfresh m hm
    have h2 :
        ([({ id := optimisticId, role := "user", content := st.input,
             created_at := now, metadata := none } : ChatMessage)]).filter
          (fun m => m.id != optimisticId) = [] := by
      simp
    rw [h1, h2, List.append_nil]
  refine ⟨?_, ?_, ?_⟩
  · simp only [handleSendMessage, if_neg hinput]
    exact hfilter
  · simp only [handleSendMessage, if_neg hinput]
    rw [hfilter]
  · simp only [handleSendMessage, if_neg hinput]
    exact lookupKey_setKey data.message.id (data.sources.getD []) st.sourcesByMessage

/-- Concrete pre-send chat state used by the C10 witness. -/
def chatState0 : ChatState :=
  { messages :=
      [{ id := "old1", role := "assistant", content := "earlier", created_at := "t-1",
         metadata := none }],
    sourcesByMessage := [], input := "hi", activeSessionId := none, errorMsg := none }

/-- Concrete chatbot response payload used by the C10 witness. -/
def chatData0 : ChatResponsePayload :=
  { session_id := "s1",
    message :=
      { id := "m1", role := "assistant", content := "hello", created_at := "t1",
        metadata := none },
    sources := none }

/-- Witness for C10 at a concrete state and payload. -/
theorem send_message_optimistic_update_witness :
    (handleSendMessage chatState0 "opt1" "t0" (Except.error "boom")).messages =
      chatState0.messages ∧
    (handleSendMessage chatState0 "opt1" "t0" (Except.ok chatData0)).messages =
      chatState0.messages ++
        [{ id := "opt1", role := "user", content := chatState0.input,
           created_at := "t0", metadata := none },
         { chatData0.message with role := "assistant" }] ∧
    lookupKey (handleSendMessage chatState0 "opt1" "t0" (Except.ok chatData0)).sourcesByMessage
        chatData0.message.id =
      some (chatData0.sources.getD []) :=
  send_message_optimistic_update chatState0 "opt1" "t0" "boom" chatData0
    (by simp [chatState0]) (by decide)

/-- Every branch of the per-artifact step advances `processed` and records
exactly one artifact. -/
theorem processFile_counters (cfg : PipelineCfg) (oracle : IngestFile → FileOutcome)
    (force : Bool) (area agent : String) (st : JobRun) (f : IngestFile) :
    (processFile cfg oracle force area agent st f).processed = st.processed + 1 ∧
    (processFile cfg oracle force area agent st f).artifacts.length =
      st.artifacts.length + 1 := by
  simp only [processFile]
  split
  · simp
  · cases ho : oracle f <;> simp

/-- The per-artifact step keeps the invariant that a raised fatal flag
comes with at least one recorded failure. -/
theorem processFile_fatal_failures (cfg : PipelineCfg) (oracle : IngestFile → FileOutcome)
    (force : Bool) (area agent : String) (st : JobRun) (f : IngestFile)
    (h : st.fatal = true → 1 ≤ st.failures) :
    (processFile cfg oracle force area agent st f).fatal = true →
      1 ≤ (processFile cfg oracle force area agent st f).failures := by
  simp only [processFile]
  split
  · intro hf
    exact h hf
  · cases ho : oracle f
    · intro hf
      exact h hf
    · intro hf
      show 1 ≤ st.failures + 1
      omega
    · intro hf
      show 1 ≤ st.failures + 1
      omega
    · intro hf
      show 1 ≤ st.failures + 1
      omega
    · intro hf
      show 1 ≤ st.failures + 1
      omega

/-- The artifact loop keeps the fatal-implies-failure invariant. -/
theorem runFiles_fatal_failures (cfg : PipelineCfg) (oracle : IngestFile → FileOutcome)
    (force : Bool) (area agent : String) :
    ∀ (files : List IngestFile) (st : JobRun),
      (st.fatal = true → 1 ≤ st.failures) →
      ((runFiles cfg oracle force area agent st files).fatal = true →
        1 ≤ (runFiles cfg oracle force area agent st files).failures) := by
  intro files
  induction files with
  | nil => intro st h; exact h
  | cons f rest ih =>
      intro st h
      simp only [runFiles]
      split
      · exact h
      · exact ih _ (processFile_fatal_failures cfg oracle force area agent st f h)

/-- A fatal state absorbs the rest of the artifact loop. -/
theorem runFiles_fatal_stop (cfg : PipelineCfg) (oracle : IngestFile → FileOutcome)
    (force : Bool) (area agent : String) :
    ∀ (files : List IngestFile) (st : JobRun), st.fatal = true →
      runFiles cfg oracle force area agent st files = st := by
  intro files
  cases files with
  | nil => intro st _; rfl
  | cons f rest => intro st h; simp [runFiles, h]

/-- The artifact loop splits over list append. -/
theorem runFiles_append (cfg : PipelineCfg) (oracle : IngestFile → FileOutcome)
    (force : Bool) (area agent : String) :
    ∀ (as bs : List IngestFile) (st : JobRun),
      runFiles cfg oracle force area agent st (as ++ bs) =
        runFiles cfg oracle force area agent
          (runFiles cfg oracle force area agent st as) bs := by
  intro as
  induction as with
  | nil => intro bs st; rfl
  | cons f rest ih =>
      intro bs st
      by_cases hf : st.fatal = true
      · simp only [List.cons_append, runFiles, hf, if_true]
        exact (runFiles_fatal_stop cfg oracle force area agent bs st hf).symm
      · simp only [List.cons_append, runFiles, hf, if_false, Bool.false_eq_true]
        exact ih bs _

/-- Processing an artifact whose pipeline outcome is a successful
extraction (whether actually processed or skipped as a duplicate) leaves
the fatal flag and the failure counter unchanged. -/
theorem processFile_extracted_keep (cfg : PipelineCfg) (oracle : IngestFile → FileOutcome)
    (force : Bool) (area agent : String) (st : JobRun) (f : IngestFile) (tx : String)
    (h : oracle f = FileOutcome.extracted tx) :
    (processFile cfg oracle force area agent st f).fatal = st.fatal ∧
    (processFile cfg oracle force area agent st f).failures = st.failures := by
  simp only [processFile]
  split
  · simp
  · simp [h]

/-- Over a list of artifacts that all extract successfully, the loop
keeps the fatal flag low and the failure count unchanged while processing
every file. -/
theorem runFiles_all_extracted (cfg : PipelineCfg) (oracle : IngestFile → FileOutcome)
    (force : Bool) (area agent : String) :
    ∀ (files : List IngestFile) (st : JobRun),
      st.fatal = false →
      (∀ g ∈ files, ∃ tx, oracle g = FileOutcome.extracted tx) →
      (runFiles cfg oracle force area agent st files).fatal = false ∧
      (runFiles cfg oracle force area agent st files).failures = st.failures ∧
      (runFiles cfg oracle force area agent st files).processed =
        st.processed + files.length ∧
      (runFiles cfg oracle force area agent st files).artifacts.length =
        st.artifacts.length + files.length := by
  intro files
  induction files with
  | nil =>
      intro st hf _
      exact ⟨hf, rfl, by simp [runFiles], by simp [runFiles]⟩
  | cons f rest ih =>
      intro st hf hall
      obtain ⟨tx, htx⟩ := hall f (by simp)
      have hkeep := processFile_extracted_keep cfg oracle force area agent st f tx htx
      have hcnt := processFile_counters cfg oracle force area agent st f
      have hrec := ih (processFile cfg oracle force area agent st f)
        (by rw [hkeep.1]; exact hf)
        (fun g hg => hall g (by simp [hg]))
      simp only [runFiles, hf, if_false, Bool.false_eq_true, List.length_cons]
      refine ⟨hrec.1, ?_, ?_, ?_⟩
      · rw [hrec.2.1, hkeep.2]
      · rw [hrec.2.2.1, hcnt.1]; omega
      · rw [hrec.2.2.2, hcnt.2]; omega

/-- C4: the terminal status a job reaches is `succeeded` exactly when
zero artifact failures occurred, `failed` exactly when a fatal
provider-unavailable-class error occurred, `partial` otherwise; `pending`
and `running` are the only transient states and the transition relation
never leaves a terminal state. -/
theorem job_terminal_status (cfg : PipelineCfg) (oracle : IngestFile → FileOutcome)
    (force : Bool) (area agent : String) (store : Store) (files : List IngestFile) :
    (terminalStatus (runFiles cfg oracle force area agent (initialRun store) files) =
        JobStatus.succeeded ↔
      (runFiles cfg oracle force area agent (initialRun store) files).failures = 0) ∧
    (terminalStatus (runFiles cfg oracle force area agent (initialRun store) files) =
        JobStatus.failed ↔
      (runFiles cfg oracle force area agent (initialRun store) files).fatal = true) ∧
    (terminalStatus (runFiles cfg oracle force area agent (initialRun store) files) =
        JobStatus.partialDone ↔
      ((runFiles cfg oracle force area agent (initialRun store) files).fatal = false ∧
        (runFiles cfg oracle force area agent (initialRun store) files).failures ≠ 0)) ∧
    (∀ s : JobStatus, isTerminal s = false ↔ (s = JobStatus.pending ∨ s = JobStatus.running)) ∧
    (∀ s u : JobStatus, JobStep s u → isTerminal s = false) := by
  have hff := runFiles_fatal_failures cfg oracle force area agent files (initialRun store)
    (by intro hc; simp [initialRun] at hc)
  set run := runFiles cfg oracle force area agent (initialRun store) files with hrun
  refine ⟨?_, ?_, ?_, ?_, ?_⟩
  · by_cases hf : run.fatal = true
    · have h1 := hff hf
      simp only [terminalStatus, hf, if_true]
      constructor
      · intro h; cases h
      · intro h; omega
    · simp only [terminalStatus, hf, if_false, Bool.false_eq_true]
      by_cases h0 : run.failures = 0
      · simp [h0]
      · simp [h0]
  · by_cases hf : run.fatal = true
    · simp [terminalStatus, hf]
    · simp only [terminalStatus, hf, if_false, Bool.false_eq_true]
      by_cases h0 : run.failures = 0
      · simp [h0, hf]
      · simp [h0, hf]
  · by_cases hf : run.fatal = true
    · simp [terminalStatus, hf]
    · simp only [terminalStatus, hf, if_false, Bool.false_eq_true]
      by_cases h0 : run.failures = 0
      · simp [h0, hf]
      · simp [h0, hf]
  · intro s; cases s <;> simp [isTerminal]
  · intro s u h
    cases h with
    | start => rfl
    | finish t ht => rfl

/-- C5: an `EmbeddingError(dimension-mismatch)` on one artifact aborts
only that artifact - the remaining artifacts are all processed and the
job ends `partial` - whereas an `EmbeddingError(provider-unavailable)`
halts the remaining artifacts and leaves the job `failed`. -/
theorem embedding_error_classification (cfg : PipelineCfg) (force : Bool)
    (area agent : String) (oracle : IngestFile → FileOutcome)
    (pre post : List IngestFile) (f : IngestFile) (store : Store)
    (hpre : ∀ g ∈ pre, ∃ tx, oracle g = FileOutcome.extracted tx)
    (hpost : ∀ g ∈ post, ∃ tx, oracle g = FileOutcome.extracted tx)
    (hskip :
      (hasHash (runFiles cfg oracle force area agent (initialRun store) pre).store.hashes
          area (hashContent f.content) && !force) = false) :
    (oracle f = FileOutcome.embedDimMismatch →
      (runFiles cfg oracle force area agent (initialRun store) (pre ++ f :: post)).processed =
          pre.length + 1 + post.length ∧
      (runFiles cfg oracle force area agent (initialRun store)
          (pre ++ f :: post)).artifacts.length = pre.length + 1 + post.length ∧
      terminalStatus (runFiles cfg oracle force area agent (initialRun store)
          (pre ++ f :: post)) = JobStatus.partialDone) ∧
    (oracle f = FileOutcome.embedProviderUnavailable →
      (runFiles cfg oracle force area agent (initialRun store) (pre ++ f :: post)).processed =
          pre.length + 1 ∧
      (runFiles cfg oracle force area agent (initialRun store)
          (pre ++ f :: post)).artifacts.length = pre.length + 1 ∧
      terminalStatus (runFiles cfg oracle force area agent (initialRun store)
          (pre ++ f :: post)) = JobStatus.failed) := by
  have hst0 : (initialRun store).fatal = false := rfl
  have hpre1 := runFiles_all_extracted cfg oracle force area agent pre (initialRun store)
    hst0 hpre
  set st1 := runFiles cfg oracle force area agent (initialRun store) pre with hst1
  have happ : runFiles cfg oracle force area agent (initialRun store) (pre ++ f :: post) =
      runFiles cfg oracle force area agent st1 (f :: post) :=
    runFiles_append cfg oracle force area agent pre (f :: post) (initialRun store)
  have hstep : runFiles cfg oracle force area agent st1 (f :: post) =
      runFiles cfg oracle force area agent
        (processFile cfg oracle force area agent st1 f) post := by
    simp [runFiles, hpre1.1]
  constructor
  · intro ho
    have hfa : (processFile cfg oracle force area agent st1 f).fatal = st1.fatal := by
      simp [processFile, hskip, ho]
    have hfb : (processFile cfg oracle force area agent st1 f).failures =
        st1.failures + 1 := by
      simp [processFile, hskip, ho]
    have hfok : (processFile cfg oracle force area agent st1 f).fatal = false := by
      rw [hfa]; exact hpre1.1
    have hcnt := processFile_counters cfg oracle force area agent st1 f
    have hrest := runFiles_all_extracted cfg oracle force area agent post
      (processFile cfg oracle force area agent st1 f) hfok hpost
    rw [happ, hstep]
    refine ⟨?_, ?_, ?_⟩
    · rw [hrest.2.2.1, hcnt.1, hpre1.2.2.1]
      simp [initialRun]
    · rw [hrest.2.2.2, hcnt.2, hpre1.2.2.2]
      simp [initialRun]
    · have hfail : (runFiles cfg oracle force area agent
          (processFile cfg oracle force area agent st1 f) post).failures =
            st1.failures + 1 := by rw [hrest.2.1, hfb]
      have hfatal := hrest.1
      simp only [terminalStatus, hfatal, if_false, Bool.false_eq_true, hfail]
      have hne : st1.failures + 1 ≠ 0 := by omega
      simp [hne]
  · intro ho
    have hfa : (processFile cfg oracle force area agent st1 f).fatal = true := by
      simp [processFile, hskip, ho]
    have hcnt := processFile_counters cfg oracle force area agent st1 f
    have hhalt := runFiles_fatal_stop cfg oracle force area agent post
      (processFile cfg oracle force area agent st1 f) hfa
    rw [happ, hstep, hhalt]
    refine ⟨?_, ?_, ?_⟩
    · rw [hcnt.1, hpre1.2.2.1]; simp [initialRun]
    · rw [hcnt.2, hpre1.2.2.2]; simp [initialRun]
    · simp [terminalStatus, hfa]

/-- Dedup finds a hash that was just appended for the same area. -/
theorem hasHash_append_self (hs : List (String × String)) (area hh : String) :
    hasHash (hs ++ [(area, hh)]) area hh = true := by
  simp [hasHash]

/-- C6: ingesting the same file content twice into the same area without
`force_reprocess` yields exactly one Artifact/Chunk set - the second run
records a single skipped-duplicate artifact, performs no re-extraction
and no re-embedding, and creates no new chunk or vector point (the whole
store is unchanged). -/
theorem hash_dedup_idempotent (cfg : PipelineCfg) (oracle : IngestFile → FileOutcome)
    (area agent : String) (f : IngestFile) (store0 : Store) :
    (runFiles cfg oracle false area agent
        (initialRun (runFiles cfg oracle false area agent
          (initialRun store0) [f]).store) [f]).artifacts =
      [{ path := f.path, hash := hashContent f.content,
         status := ArtifactStatus.skippedDuplicate }] ∧
    (runFiles cfg oracle false area agent
        (initialRun (runFiles cfg oracle false area agent
          (initialRun store0) [f]).store) [f]).store =
      (runFiles cfg oracle false area agent (initialRun store0) [f]).store ∧
    (runFiles cfg oracle false area agent
        (initialRun (runFiles cfg oracle false area agent
          (initialRun store0) [f]).store) [f]).newChunks = [] := by
  have hrun : ∀ st : JobRun, st.fatal = false →
      runFiles cfg oracle false area agent st [f] =
        processFile cfg oracle false area agent st f := by
    intro st h
    simp [runFiles, h]
  have h1 : runFiles cfg oracle false area agent (initialRun store0) [f] =
      processFile cfg oracle false area agent (initialRun store0) f :=
    hrun _ rfl
  have hH : hasHash (runFiles cfg oracle false area agent
      (initialRun store0) [f]).store.hashes area (hashContent f.content) = true := by
    rw [h1]
    simp only [processFile]
    split
    · next hc =>
        simpa [initialRun] using hc
    · cases ho : oracle f <;> simp [initialRun, hasHash_append_self]
  have h2 : runFiles cfg oracle false area agent
      (initialRun (runFiles cfg oracle false area agent
        (initialRun store0) [f]).store) [f] =
      processFile cfg oracle false area agent
        (initialRun (runFiles cfg oracle false area agent
          (initialRun store0) [f]).store) f :=
    hrun _ rfl
  rw [h2]
  simp only [processFile]
  rw [if_pos]
  · exact ⟨rfl, rfl, rfl⟩
  · rw [show (initialRun (runFiles cfg oracle false area agent
        (initialRun store0) [f]).store).store =
        (runFiles cfg oracle false area agent (initialRun store0) [f]).store from rfl,
      Bool.not_false, Bool.and_true]
    exact hH

/-- Concrete pipeline configuration used by the witnesses. -/
def dcfg0 : PipelineCfg :=
  { chunk_size := 20, chunk_overlap := 4, dropPct := 50, sampleCap := 5 }

/-- Concrete empty store used by the witnesses. -/
def emptyStore0 : Store :=
  { hashes := [], chunks := [], extractions := 0, embeddings := 0 }

/-- Concrete input file used by the witnesses. -/
def file0 : IngestFile := { path := "area1/doc1.txt", content := "c1" }

/-- Oracle used by the witnesses: every artifact fails embedding with a
dimension mismatch. -/
def mismatchOracle : IngestFile → FileOutcome :=
  fun _ => FileOutcome.embedDimMismatch

/-- Witness for C4 at a concrete run and the pending-to-running step. -/
theorem job_terminal_status_witness :
    isTerminal JobStatus.pending = false ∧
    (terminalStatus (runFiles dcfg0 mismatchOracle false "a" "g"
        (initialRun emptyStore0) []) = JobStatus.succeeded ↔
      (runFiles dcfg0 mismatchOracle false "a" "g"
        (initialRun emptyStore0) []).failures = 0) :=
  ⟨(job_terminal_status dcfg0 mismatchOracle false "a" "g" emptyStore0 []).2.2.2.2
      JobStatus.pending JobStatus.running JobStep.start,
   (job_terminal_status dcfg0 mismatchOracle false "a" "g" emptyStore0 []).1⟩

/-- Witness for C5: one artifact with a dimension mismatch leaves the job
`partial`. -/
theorem embedding_error_classification_witness :
    terminalStatus (runFiles dcfg0 mismatchOracle false "a" "g" (initialRun emptyStore0)
        ([] ++ file0 :: [])) = JobStatus.partialDone := by
  have h := embedding_error_classification dcfg0 false "a" "g" mismatchOracle [] [] file0
    emptyStore0 (by simp) (by simp) (by decide)
  exact (h.1 rfl).2.2

end Aiagents
